import Mathlib

/-!
Verification of the stratified-aggregation and flagging core of
`fairmlhealth/reports.py` (functions `__apply_featureGroups`,
`__apply_biasGroups`, `sort_report`, `bias_report`, the `__Flagger` class
and the significant-figure rounding step).  Python floats are modelled as
exact rationals together with an explicit NaN constructor whose comparisons
are all false, matching IEEE comparison semantics for the comparisons the
source performs.  Python strings are Lean strings; `str.lower()` is a
character-wise `Char.toLower`.  Exceptions are modelled with `Except`.
-/

/-- Numeric cell value: NaN or an exact rational.  Comparisons with NaN are
false, as in Python. -/
inductive NumVal where
  | nan : NumVal
  | val (q : ℚ) : NumVal
deriving DecidableEq

/-- Cell of a rendered report table: numeric, or a string (string cells
arise when a row index is materialised into a column by `reset_index`). -/
inductive CellVal where
  | num (v : NumVal) : CellVal
  | str (s : String) : CellVal
deriving DecidableEq

/-- Python `str.lower()` restricted to the character-wise case mapping. -/
def pyLower (s : String) : String := ⟨s.data.map Char.toLower⟩

/-- Python string comparison `a <= b`: lexicographic on code points, which
is the order of `List Char` under `Char`'s linear order. -/
def pyStrLe (a b : String) : Prop := a.data ≤ b.data

instance : DecidableRel pyStrLe :=
  fun a b => inferInstanceAs (Decidable (a.data ≤ b.data))

instance : IsTotal String pyStrLe := ⟨fun a b => le_total a.data b.data⟩

instance : IsTrans String pyStrLe := ⟨fun _ _ _ h1 h2 => le_trans h1 h2⟩

/-- `sorted(...)` from Python on a list of strings. -/
def pySorted (l : List String) : List String := List.insertionSort pyStrLe l

/-- The static list `__Flagger.diffs` (reports.py lines 903-906), verbatim:
note the capitalised entry for Statistical Parity Difference. -/
def diffs : List String :=
  ["auc difference", "balanced accuracy difference",
   "equalized odds difference", "positive predictive parity difference",
   "Statistical Parity Difference", "fpr diff", "tpr diff", "ppv diff"]

/-- The static list `__Flagger.ratios` (reports.py lines 907-909), verbatim:
note the trailing space in the disparate impact ratio entry. -/
def ratios : List String :=
  ["balanced accuracy ratio", "disparate impact ratio ",
   "equalized odds ratio", "fpr ratio", "tpr ratio", "ppv ratio"]

/-- The static list `__Flagger.stats_high` (reports.py line 910). -/
def stats_high : List String := ["consistency score"]

/-- The static list `__Flagger.stats_low` (reports.py line 911). -/
def stats_low : List String := ["between-group gen. entropy error"]

/-- `np.isnan`. -/
def isNanV : NumVal → Bool
  | NumVal.nan => true
  | NumVal.val _ => false

/-- Python `v < q` for a possibly-NaN float `v` and a finite bound `q`. -/
def nvLtQ : NumVal → ℚ → Bool
  | NumVal.nan, _ => false
  | NumVal.val x, q => decide (x < q)

/-- Python `v > q` for a possibly-NaN float `v` and a finite bound `q`. -/
def nvGtQ : NumVal → ℚ → Bool
  | NumVal.nan, _ => false
  | NumVal.val x, q => decide (q < x)

/-- `is_oor` of `__Flagger.color_diff` (line 964):
`not -0.1 < i < 0.1 and not np.isnan(i)`. -/
def is_oor_diff (v : NumVal) : Bool :=
  (!(nvGtQ v (-1/10) && nvLtQ v (1/10))) && !(isNanV v)

/-- `is_oor` of `__Flagger.color_ratio` (line 1006):
`not 0.8 < i < 1.2 and not np.isnan(i)`. -/
def is_oor_ratio (v : NumVal) : Bool :=
  (!(nvGtQ v (8/10) && nvLtQ v (12/10))) && !(isNanV v)

/-- Flag decision of `color_diff` for one cell in the "columns" label
layout (lines 972-974): the lower-cased column name must be a member of
`diffs` and the value out of range. -/
def flag_diff (name : String) (v : NumVal) : Bool :=
  decide (pyLower name ∈ diffs) && is_oor_diff v

/-- Flag decision of `color_ratio` for one cell in the "columns" label
layout (lines 1013-1016). -/
def flag_ratio (name : String) (v : NumVal) : Bool :=
  decide (pyLower name ∈ ratios) && is_oor_ratio v

/-- Flag decision of `color_st` for one cell in the "columns" label layout
(lines 981-984, 995-999).  The Python expression is
`(n in lb_low and i > 0.2) or (n in lb_high and i < 0.8) and not np.isnan(i)`;
`and` binds tighter than `or`. -/
def flag_st (name : String) (v : NumVal) : Bool :=
  (decide (pyLower name ∈ stats_low) && nvGtQ v (2/10)) ||
    ((decide (pyLower name ∈ stats_high) && nvLtQ v (8/10)) && !(isNanV v))

/-- A cell is flagged when any of the three coloring passes marks it
(`apply_flag` chains `color_diff`, `color_ratio`, `color_st`). -/
def flagAnyNum (name : String) (v : NumVal) : Bool :=
  flag_diff name v || flag_ratio name v || flag_st name v

/-- Columns-layout flag decision on a general cell.  A string-valued cell
in a column whose name matches one of the measure lists would make the
Python comparison raise; such cells do not occur in report tables, and the
measure-name guard is evaluated first, so a non-matching string cell is
simply unflagged. -/
def cFlagAny (name : String) (c : CellVal) : Bool :=
  match c with
  | CellVal.num v => flagAnyNum name v
  | CellVal.str _ => false

/-- Index-layout flag decision for one cell whose two-level row key is
`(cat, meas)`: `color_diff`/`color_ratio` select keys under the
`Group Fairness` category whose lower-cased measure is listed, `color_st`
keys under `Individual Fairness` (lines 965-971, 985-994, 1007-1012). -/
def iFlag (cat meas : String) (c : CellVal) : Bool :=
  match c with
  | CellVal.str _ => false
  | CellVal.num v =>
      (decide (cat = "Group Fairness") && decide (pyLower meas ∈ diffs) && is_oor_diff v)
      || (decide (cat = "Group Fairness") && decide (pyLower meas ∈ ratios) && is_oor_ratio v)
      || ((decide (cat = "Individual Fairness") && decide (pyLower meas ∈ stats_low) && nvGtQ v (2/10))
          || ((decide (cat = "Individual Fairness") && decide (pyLower meas ∈ stats_high) && nvLtQ v (8/10)) && !(isNanV v)))

/-- Round-half-to-even to an integer, the rounding mode of `np.round`. -/
def rhalfEven (q : ℚ) : ℤ :=
  let f := ⌊q⌋
  let r := q - f
  if r < 1/2 then f
  else if 1/2 < r then f + 1
  else if Even f then f else f + 1

/-- `round(q, n)`: round to `n` decimal places, half to even, as
`DataFrame.round` does on numeric cells. -/
def roundDec (n : ℕ) (q : ℚ) : ℚ := (rhalfEven (q * 10 ^ n) : ℚ) / 10 ^ n

/-- Rounding a possibly-NaN float: NaN is left unchanged. -/
def roundNum (n : ℕ) : NumVal → NumVal
  | NumVal.nan => NumVal.nan
  | NumVal.val q => NumVal.val (roundDec n q)

/-- Rounding a report cell: non-numeric cells are left unchanged. -/
def roundCell (n : ℕ) : CellVal → CellVal
  | CellVal.num v => CellVal.num (roundNum n v)
  | CellVal.str s => CellVal.str s

/-- A rendered rectangular report table: column names and cell rows. -/
structure RTable where
  cols : List String
  cells : List (List CellVal)
deriving DecidableEq

/-- `df.round(sig_fig)` on a report table. -/
def roundTable (n : ℕ) (t : RTable) : RTable :=
  ⟨t.cols, t.cells.map (fun r => r.map (roundCell n))⟩

/-- The fixed head-column names of `sort_report` (lines 305-308); the two
target display names are supplied by the label-naming collaborator
(`y_cols()`, defined outside this module). -/
def head_names (yn yh : String) : List String :=
  ["Feature Name", "Feature Value", "Obs.", yn ++ " Mean", yh ++ " Mean"]

/-- Column ordering computed by `sort_report` (lines 309-311): the head
names present in the report first, in their fixed order, then all other
columns sorted. -/
def sort_report_cols (yn yh : String) (cols : List String) : List String :=
  let head_cols := (head_names yn yh).filter (fun c => decide (c ∈ cols))
  let tail_cols := pySorted (cols.filter (fun c => !(decide (c ∈ head_cols))))
  head_cols ++ tail_cols

/-- A stratified source table: named columns of string-cast values (the
appliers receive data already string-cast by `stratified_preprocess`). -/
structure DFrame where
  cols : List String
  rows : List (List String)
deriving DecidableEq

/-- Value of column `f` in one row. -/
def cellAt (df : DFrame) (f : String) (row : List String) : String :=
  row.getD (df.cols.indexOf f) ""

/-- All values of column `f`, in row order. -/
def colVals (df : DFrame) (f : String) : List String :=
  df.rows.map (cellAt df f)

/-- Group keys of `df.groupby(f)`: the distinct values of column `f` in
ascending order (pandas sorts group keys). -/
def featureGroupKeys (df : DFrame) (f : String) : List String :=
  pySorted (colVals df f).dedup

/-- The partition of `df` whose column `f` equals `v`. -/
def subFrame (df : DFrame) (f v : String) : DFrame :=
  ⟨df.cols, df.rows.filter (fun r => decide (cellAt df f r = v))⟩

/-- One row of a per-feature result table: the feature name and value tags
inserted by the appliers, plus the metric record returned by the metric
function. -/
structure ResRow where
  fname : String
  fval : String
  metrics : List (String × ℚ)
deriving DecidableEq

/-- `grp.apply(...)` (line 385): the metric function runs on every group
in key order; the first exception aborts the whole grouped apply. -/
def groupApply (g : String → Except String ResRow) : List String → Except String (List ResRow)
  | [] => Except.ok []
  | k :: ks =>
      match g k with
      | Except.error e => Except.error e
      | Except.ok r => (groupApply g ks).map (fun rs => r :: rs)

/-- The body of one iteration of the feature loop of
`__apply_featureGroups` (lines 379-393) up to the exception handler:
either every partition of `f` yields a row, or the first exception is
returned. -/
def featureResult (df : DFrame) (func : DFrame → Except String (List (String × ℚ)))
    (f : String) : Except String (List ResRow) :=
  groupApply (fun v => (func (subFrame df f v)).map (fun m => ⟨f, v, m⟩))
    (featureGroupKeys df f)

/-- `errs[f] = e` on the error ledger (a Python dict keyed by feature
name): replace in place if the key exists, else append. -/
def updErr (errs : List (String × String)) (f e : String) : List (String × String) :=
  if f ∈ errs.map Prod.fst
  then errs.map (fun p => if p.1 = f then (f, e) else p)
  else errs ++ [(f, e)]

/-- Per-feature result table: column names plus tagged rows. -/
structure ResTable where
  cols : List String
  rows : List ResRow
deriving DecidableEq

/-- Deduplication keeping first occurrences, the column-union order of
`pd.concat`. -/
def firstDedup (l : List String) : List String :=
  l.foldl (fun acc a => if acc.contains a then acc else acc ++ [a]) []

/-- Union of metric column names over a list of result rows, in order of
first appearance. -/
def metricColsOf (rows : List ResRow) : List String :=
  firstDedup ((rows.map (fun r => r.metrics.map Prod.fst)).flatten)

/-- Final assembly of `__apply_featureGroups` (lines 394-397): if no
feature produced a frame, an empty table with only the two id columns is
returned; otherwise the per-feature frames are concatenated. -/
def mkResTable (res : List (List ResRow)) : ResTable :=
  if res = [] then ⟨["Feature Name", "Feature Value"], []⟩
  else ⟨"Feature Name" :: "Feature Value" :: metricColsOf res.flatten, res.flatten⟩

/-- One step of the feature loop of `__apply_featureGroups`: an exception
from the grouped apply is recorded against `f` and the feature is skipped
(`continue`); otherwise the feature's frame is appended. -/
def afgStep (df : DFrame) (func : DFrame → Except String (List (String × ℚ)))
    (acc : List (List ResRow) × List (String × String)) (f : String) :
    List (List ResRow) × List (String × String) :=
  match featureResult df func f with
  | Except.error e => (acc.1, updErr acc.2 f e)
  | Except.ok rows => (acc.1 ++ [rows], acc.2)

/-- `__apply_featureGroups(features, df, func, *args)` (lines 362-398),
returning the result table and the error ledger `errs`. -/
def applyFeatureGroups (features : List String) (df : DFrame)
    (func : DFrame → Except String (List (String × ℚ))) :
    ResTable × List (String × String) :=
  let acc := features.foldl (afgStep df func) ([], [])
  (mkResTable acc.1, acc.2)

/-- Source table for the bias applier: string-cast stratification columns
plus the aligned numeric target and prediction values of each row. -/
structure BFrame where
  cols : List String
  rows : List (List String)
  yvals : List (ℚ × ℚ)
deriving DecidableEq

/-- Value of column `f` in one row of a bias source table. -/
def bCellAt (df : BFrame) (f : String) (row : List String) : String :=
  row.getD (df.cols.indexOf f) ""

/-- All values of column `f` of a bias source table, in row order. -/
def bColVals (df : BFrame) (f : String) : List String :=
  df.rows.map (bCellAt df f)

/-- `vals = sorted(df[f].unique().tolist())` (line 426). -/
def biasVals (df : BFrame) (f : String) : List String :=
  pySorted (bColVals df f).dedup

/-- The indicator entry of the constructed `prtc_attr` column for one row
(lines 429-432): 1 on the partition value, NaN on a missing sentinel when
the partition value is itself not the sentinel, 0 otherwise. -/
def paEntry (v x : String) : Option ℕ :=
  if x = v then some 1
  else if v ≠ "nan" ∧ x = "nan" then none
  else some 0

/-- The whole constructed indicator column for feature `f`, value `v`. -/
def paCol (df : BFrame) (f v : String) : List (Option ℕ) :=
  (bColVals df f).map (paEntry v)

/-- `df[pa_name].nunique()` (line 434): number of distinct non-null
indicator values. -/
def paNunique (df : BFrame) (f v : String) : ℕ :=
  ((paCol df f v).filterMap id).dedup.length

/-- `subset` (lines 439-440): the non-null-indicator rows, each carrying
the indicator and the two target columns. -/
def biasSubset (df : BFrame) (f v : String) : List (ℕ × ℚ × ℚ) :=
  (List.zip (paCol df f v) df.yvals).filterMap
    (fun p =>
      match p.1 with
      | none => none
      | some k => some (k, p.2.1, p.2.2))

/-- One step of the inner value loop of `__apply_biasGroups`
(lines 428-452).  Partitions with a single non-null indicator value are
skipped; the metric function is invoked with the privileged-group marker
fixed at `1` (line 443); an exception is recorded against `f` and that
partition alone is skipped; a success appends one tagged row. -/
def biasStep (df : BFrame) (f : String)
    (func : List (ℕ × ℚ × ℚ) → ℕ → Except String (List (String × ℚ)))
    (acc : List ResRow × List (String × String)) (v : String) :
    List ResRow × List (String × String) :=
  if paNunique df f v = 1 then acc
  else
    match func (biasSubset df f v) 1 with
    | Except.error e => (acc.1, updErr acc.2 f e)
    | Except.ok m => (acc.1 ++ [⟨f, v, m⟩], acc.2)

/-- The feature loop body of `__apply_biasGroups`. -/
def biasFeature (df : BFrame)
    (func : List (ℕ × ℚ × ℚ) → ℕ → Except String (List (String × ℚ)))
    (acc : List ResRow × List (String × String)) (f : String) :
    List ResRow × List (String × String) :=
  (biasVals df f).foldl (biasStep df f func) acc

/-- Final assembly of `__apply_biasGroups` (lines 453-456). -/
def mkResTableRows (rows : List ResRow) : ResTable :=
  if rows = [] then ⟨["Feature Name", "Feature Value"], []⟩
  else ⟨"Feature Name" :: "Feature Value" :: metricColsOf rows, rows⟩

/-- `__apply_biasGroups(features, df, func, yt, yh)` (lines 401-457),
returning the result table and the error ledger `errs`. -/
def applyBiasGroups (features : List String) (df : BFrame)
    (func : List (ℕ × ℚ × ℚ) → ℕ → Except String (List (String × ℚ))) :
    ResTable × List (String × String) :=
  let acc := features.foldl (biasFeature df func) ([], [])
  (mkResTableRows acc.1, acc.2)

/-- `sort_report` applied to a per-feature result table (line 654). -/
def sortResTable (yn yh : String) (t : ResTable) : ResTable :=
  ⟨sort_report_cols yn yh t.cols, t.rows⟩

/-- `df.round(sig_fig)` on a per-feature result table. -/
def roundResTable (n : ℕ) (t : ResTable) : ResTable :=
  ⟨t.cols,
   t.rows.map (fun r => ⟨r.fname, r.fval, r.metrics.map (fun p => (p.1, roundDec n p.2))⟩)⟩

/-- `__classification_bias_report` (lines 599-655) after preprocessing:
the caller-supplied `priv_grp` keyword argument reaches this function
through `**kwargs` but is never read; only the hard-coded marker inside
`__apply_biasGroups` is used.  Cohort iteration (defined outside this
module) is a transparent passthrough when no cohort column is supplied. -/
def classification_bias_report_model (yn yh : String) (features : List String)
    (df : BFrame) (func : List (ℕ × ℚ × ℚ) → ℕ → Except String (List (String × ℚ)))
    (_privGrp : ℕ) : ResTable :=
  sortResTable yn yh (applyBiasGroups features df func).1

/-- `bias_report` (lines 106-144) on the classification path with
`flag_oor=False`: delegate, then round to the requested significant
figures.  The `priv_grp` keyword is forwarded through `**kwargs`. -/
def bias_report_model (yn yh : String) (features : List String) (df : BFrame)
    (func : List (ℕ × ℚ × ℚ) → ℕ → Except String (List (String × ℚ)))
    (sigFig : ℕ) (privGrp : ℕ) : ResTable :=
  roundResTable sigFig (classification_bias_report_model yn yh features df func privGrp)

/-- Row index of a report table handed to the flagger: either a flat
index of labels or a two-level (category, measure) index. -/
inductive FIdx where
  | flat (ls : List String) : FIdx
  | multi (ls : List (String × String)) : FIdx
deriving DecidableEq

/-- A report table as bound by the flagger. -/
structure FlagDF where
  idx : FIdx
  cols : List String
  rows : List (List CellVal)
deriving DecidableEq

/-- `set_measure_labels` (lines 1028-1043): a two-level string index means
the "index" label layout; a flat index makes `get_level_values(1)` raise,
which is caught and mapped to the "columns" layout. -/
def isIndexLayout (df : FlagDF) : Bool :=
  match df.idx with
  | FIdx.multi _ => true
  | FIdx.flat _ => false

/-- Number of index entries (`len(df)`). -/
def idxLen : FIdx → ℕ
  | FIdx.flat ls => ls.length
  | FIdx.multi ls => ls.length

/-- Number of distinct index entries (`len(df.index.unique())`). -/
def idxUniqueLen : FIdx → ℕ
  | FIdx.flat ls => ls.dedup.length
  | FIdx.multi ls => ls.dedup.length

/-- `df.reset_index(inplace=True)` (line 947) on a flat unnamed index:
the index is materialised into a new first column named `index` and
replaced by a fresh range index.  The branch that calls this is only
reached with a flat index. -/
def resetIndex (df : FlagDF) : FlagDF :=
  match df.idx with
  | FIdx.flat ls =>
      ⟨FIdx.flat ((List.range df.rows.length).map (fun n => Nat.repr n)),
       "index" :: df.cols,
       (List.zip ls df.rows).map (fun p => CellVal.str p.1 :: p.2)⟩
  | FIdx.multi _ => df

/-- The state of the bound report after `apply_flag` ran (lines 939-951):
in the columns layout a non-unique index is reset in place, mutating the
caller's table; otherwise the table is left as is. -/
def applyFlagState (df : FlagDF) : FlagDF :=
  if isIndexLayout df then df
  else if idxUniqueLen df.idx < idxLen df.idx then resetIndex df
  else df

/-- The flag matrix produced by the three chained coloring passes, per
label layout. -/
def styledFlags (df : FlagDF) : List (List Bool) :=
  match df.idx with
  | FIdx.multi ls =>
      (List.zip ls df.rows).map (fun p => p.2.map (iFlag p.1.1 p.1.2))
  | FIdx.flat _ =>
      df.rows.map (fun row => (List.zip df.cols row).map (fun p => cFlagAny p.1 p.2))

/-- A Python value passed as the `sig_fig` argument.  Python's `bool` is a
subclass of `int`, which the source excludes explicitly (line 932). -/
inductive PyVal where
  | int (z : ℤ) : PyVal
  | bool (b : Bool) : PyVal
  | float (q : ℚ) : PyVal
  | str (s : String) : PyVal
deriving DecidableEq

/-- The styled object returned by `apply_flag`: the bound (possibly reset)
table, its flag matrix, the caption and the precision applied to the
styler. -/
structure FlagOut where
  flags : List (List Bool)
  table : FlagDF
  cap : String
  sigFig : ℤ
  asStyler : Bool
deriving DecidableEq

/-- `__Flagger.apply_flag(df, caption, sig_fig, as_styler)`
(lines 916-958): default the caption, validate `sig_fig` before binding
the report, then bind, possibly reset a non-unique index in the columns
layout, and style.  The second component of the result is the caller's
table as it stands after the call. -/
def apply_flag (df : FlagDF) (caption : Option String) (sigfig : PyVal)
    (asStyler : Bool) : Except String (FlagOut × FlagDF) :=
  let cap := caption.getD "Fairness Measures"
  match sigfig with
  | PyVal.int z =>
      let df2 := applyFlagState df
      Except.ok (⟨styledFlags df2, df2, cap, z, asStyler⟩, df2)
  | _ => Except.error "Invalid value of significant figure"

/-- The successful part of an applier step. -/
def okPart : Except String (List ResRow) → Option (List ResRow)
  | Except.ok r => some r
  | Except.error _ => none

/-- Concrete input for the C1 counterexample: one feature with two
partitions. -/
def dfC1 : DFrame := ⟨["f"], [["a"], ["b"]]⟩

/-- Metric function for the C1 counterexample: raises on the partition
whose single row is `a`, succeeds elsewhere. -/
def funcC1 : DFrame → Except String (List (String × ℚ)) :=
  fun x => if x.rows = [["a"]] then Except.error "boom" else Except.ok [("m", 1)]

/-- Concrete input for the C1 witness: two features, the first failing on
one of its partitions, the second fully succeeding. -/
def dfC1w : DFrame := ⟨["f", "g"], [["a", "x"], ["b", "x"]]⟩

/-- Metric function for the C1 witness. -/
def funcC1w : DFrame → Except String (List (String × ℚ)) :=
  fun x => if x.rows = [["a", "x"]] then Except.error "boom" else Except.ok [("m", 1)]

/-- The concrete scenario of C2: one stratification feature `region` with
five `north` and five `south` observations. -/
def dfC2 : BFrame :=
  ⟨["region"],
   [["north"], ["north"], ["north"], ["north"], ["north"],
    ["south"], ["south"], ["south"], ["south"], ["south"]],
   [(1, 1), (1, 1), (1, 1), (1, 1), (1, 1), (1, 1), (1, 1), (1, 1), (1, 1), (1, 1)]⟩

/-- Two-group metric function of the C2 scenario: succeeds on the
indicator partition whose first row is marked 1 (the `north` partition,
as `north` rows come first), raises on the other. -/
def funcC2 : List (ℕ × ℚ × ℚ) → ℕ → Except String (List (String × ℚ)) :=
  fun s _ =>
    match s.head? with
    | some (1, _, _) => Except.ok [("Selection Ratio", 1)]
    | _ => Except.error "south failure"

/-- Concrete inputs for the C6 witness. -/
def dfW6 : DFrame := ⟨["f"], [["a"]]⟩

/-- Always-raising metric function for the C6 witness. -/
def funcW6 : DFrame → Except String (List (String × ℚ)) :=
  fun _ => Except.error "e"

/-- Concrete bias input for the C6 witness. -/
def bdfW6 : BFrame := ⟨["g"], [["x"], ["y"]], [(0, 0), (0, 0)]⟩

/-- Always-raising two-group metric function for the C6 witness. -/
def bfuncW6 : List (ℕ × ℚ × ℚ) → ℕ → Except String (List (String × ℚ)) :=
  fun _ _ => Except.error "e"

/-- Concrete table for the C8 counterexample: columns label layout (flat
index) with a non-unique index. -/
def dfC8 : FlagDF :=
  ⟨FIdx.flat ["a", "a"], ["Obs."],
   [[CellVal.num (NumVal.val 1)], [CellVal.num (NumVal.val 1)]]⟩

/-- Concrete table for the C8 witness: columns label layout with a unique
index. -/
def dfW8 : FlagDF :=
  ⟨FIdx.flat ["r0", "r1"], ["Obs."],
   [[CellVal.num (NumVal.val 1)], [CellVal.num (NumVal.val 2)]]⟩

/-- Concrete table for the C9 witness. -/
def dfW9 : FlagDF :=
  ⟨FIdx.flat ["r0"], ["TPR Diff"], [[CellVal.num (NumVal.val (1/2))]]⟩

/-- Rounding an exact integer value is the identity. -/
theorem rhalfEven_intCast (z : ℤ) : rhalfEven (z : ℚ) = z := by
  unfold rhalfEven
  rw [Int.floor_intCast]
  norm_num

/-- Round-to-n-decimals is idempotent: its image consists of rationals
with denominator dividing `10 ^ n`, which scale back to integers. -/
theorem roundDec_idem (n : ℕ) (q : ℚ) : roundDec n (roundDec n q) = roundDec n q := by
  unfold roundDec
  have h10 : ((10 : ℚ) ^ n) ≠ 0 := by positivity
  rw [div_mul_cancel₀ _ h10, rhalfEven_intCast]

/-- Cell-level idempotence of the rounding step. -/
theorem roundCell_idem (n : ℕ) (c : CellVal) : roundCell n (roundCell n c) = roundCell n c := by
  cases c with
  | num v => cases v <;> simp [roundCell, roundNum, roundDec_idem]
  | str s => rfl

/-- C10: the rounding step is idempotent — for every report table and
every significant-figure count `n`, rounding twice to `n` decimals equals
rounding once (NaN and non-numeric cells are unchanged by rounding). -/
theorem roundTable_idempotent (n : ℕ) (t : RTable) :
    roundTable n (roundTable n t) = roundTable n t := by
  unfold roundTable
  simp [List.map_map, Function.comp, roundCell_idem]

/-- C3: the claim fails on the code.  At the concrete value 0.5 — outside
both acceptable ranges — a cell named `Statistical Parity Difference` and
a cell named `Disparate Impact Ratio` are not flagged by any pass,
because the static `diffs` list stores the former capitalised and the
static `ratios` list stores the latter with a trailing space, while both
matches lower-case the cell's measure name; a lower-case listed name such
as `TPR Diff` is flagged at the same value. -/
theorem flagger_never_flags_spd_dir :
    is_oor_diff (NumVal.val (1/2)) = true
    ∧ flagAnyNum "Statistical Parity Difference" (NumVal.val (1/2)) = false
    ∧ is_oor_ratio (NumVal.val (1/2)) = true
    ∧ flagAnyNum "Disparate Impact Ratio" (NumVal.val (1/2)) = false
    ∧ flag_diff "TPR Diff" (NumVal.val (1/2)) = true := by
  refine ⟨?_, by decide, ?_, by decide, ?_⟩
  · simp [is_oor_diff, nvGtQ, nvLtQ, isNanV]
    norm_num
  · simp [is_oor_ratio, nvGtQ, nvLtQ, isNanV]
    norm_num
  · have h1 : pyLower "TPR Diff" = "tpr diff" := by decide
    simp [flag_diff, is_oor_diff, nvGtQ, nvLtQ, isNanV, h1, diffs]
    norm_num

/-- C4: a measure classified (case-insensitively) as a high-is-good
statistic is flagged exactly when its value is below 0.8; a low-is-good
statistic exactly when its value is above 0.2 (NaN compares false both
ways); and a measure name classified into none of the four static lists
is never flagged by any of the three coloring passes. -/
theorem flagger_statistic_thresholds_and_unknown (name : String) (v : NumVal) :
    (pyLower name ∈ stats_high → flagAnyNum name v = nvLtQ v (8/10))
    ∧ (pyLower name ∈ stats_low → flagAnyNum name v = nvGtQ v (2/10))
    ∧ ((pyLower name ∉ diffs ∧ pyLower name ∉ ratios
        ∧ pyLower name ∉ stats_high ∧ pyLower name ∉ stats_low) →
        flag_diff name v = false ∧ flag_ratio name v = false ∧ flag_st name v = false) := by
  refine ⟨?_, ?_, ?_⟩
  · intro h
    rw [stats_high, List.mem_singleton] at h
    have d1 : decide (pyLower name ∈ diffs) = false := by rw [h]; decide
    have d2 : decide (pyLower name ∈ ratios) = false := by rw [h]; decide
    have d3 : decide (pyLower name ∈ stats_low) = false := by rw [h]; decide
    have d4 : decide (pyLower name ∈ stats_high) = true := by rw [h]; decide
    simp [flagAnyNum, flag_diff, flag_ratio, flag_st, d1, d2, d3, d4]
    cases v <;> simp [nvLtQ, isNanV]
  · intro h
    rw [stats_low, List.mem_singleton] at h
    have d1 : decide (pyLower name ∈ diffs) = false := by rw [h]; decide
    have d2 : decide (pyLower name ∈ ratios) = false := by rw [h]; decide
    have d3 : decide (pyLower name ∈ stats_low) = true := by rw [h]; decide
    have d4 : decide (pyLower name ∈ stats_high) = false := by rw [h]; decide
    simp [flagAnyNum, flag_diff, flag_ratio, flag_st, d1, d2, d3, d4]
  · intro h
    simp [flag_diff, flag_ratio, flag_st, h.1, h.2.1, h.2.2.1, h.2.2.2]

/-- C4 witness: `Consistency Score` is a high-is-good statistic and is
flagged at the concrete value 0.5 < 0.8. -/
theorem flagger_statistic_witness :
    pyLower "Consistency Score" ∈ stats_high
    ∧ flagAnyNum "Consistency Score" (NumVal.val (1/2)) = true := by
  have h := (flagger_statistic_thresholds_and_unknown "Consistency Score"
    (NumVal.val (1/2))).1 (by decide)
  refine ⟨by decide, ?_⟩
  rw [h]
  simp [nvLtQ]
  norm_num

/-- C9: `apply_flag` rejects every `sig_fig` that is not a non-boolean
integer with the configuration error, uniformly in the report and before
binding it (the error does not depend on the table); for an integer
`sig_fig` it succeeds and returns a styled result. -/
theorem apply_flag_validates_sig_fig (df : FlagDF) (caption : Option String)
    (b : Bool) (sf : PyVal) :
    ((∀ z, sf ≠ PyVal.int z) →
      apply_flag df caption sf b = Except.error "Invalid value of significant figure")
    ∧ (∀ z, sf = PyVal.int z → ∃ out, apply_flag df caption sf b = Except.ok out) := by
  constructor
  · intro h
    cases sf with
    | int z => exact absurd rfl (h z)
    | bool b2 => rfl
    | float q => rfl
    | str s => rfl
  · intro z hz
    subst hz
    exact ⟨_, rfl⟩

/-- C9 witness: the boolean `True` is rejected and the integer 4 is
accepted on a concrete report. -/
theorem apply_flag_validates_sig_fig_witness :
    apply_flag dfW9 none (PyVal.bool true) true
      = Except.error "Invalid value of significant figure"
    ∧ ∃ out, apply_flag dfW9 none (PyVal.int 4) true = Except.ok out := by
  refine ⟨(apply_flag_validates_sig_fig dfW9 none true (PyVal.bool true)).1 ?_,
    (apply_flag_validates_sig_fig dfW9 none true (PyVal.int 4)).2 4 rfl⟩
  intro z h
  exact PyVal.noConfusion h

/-- C7: the bias applier invokes the two-group metric function with the
privileged-group marker fixed at 1, so replacing the function's handling
of any other marker value changes nothing; consequently two runs of the
bias report that differ only in the caller-supplied `priv_grp` return
identical tables. -/
theorem bias_report_priv_grp_independent (yn yh : String) (features : List String)
    (df : BFrame) (func : List (ℕ × ℚ × ℚ) → ℕ → Except String (List (String × ℚ)))
    (sigFig : ℕ) (p q : ℕ) :
    bias_report_model yn yh features df func sigFig p
      = bias_report_model yn yh features df func sigFig q
    ∧ applyBiasGroups features df func
      = applyBiasGroups features df (fun s _ => func s 1) :=
  ⟨rfl, rfl⟩

/-- C2: on the concrete scenario — feature `region` with five `north` and
five `south` rows, a metric function succeeding on the `north` indicator
partition and raising on the `south` one — the bias applier returns
exactly one result row, tagged (`region`, `north`), and the error ledger
holds exactly one entry, keyed `region`. -/
theorem bias_applier_concrete_scenario :
    (applyBiasGroups ["region"] dfC2 funcC2).1.rows
      = [⟨"region", "north", [("Selection Ratio", 1)]⟩]
    ∧ (applyBiasGroups ["region"] dfC2 funcC2).2 = [("region", "south failure")] := by
  decide

/-- Under the columns label layout, a unique index is never reset;
under the index layout nothing is reset either. -/
theorem applyFlagState_eq_self (df : FlagDF)
    (h : isIndexLayout df = true ∨ ¬ (idxUniqueLen df.idx < idxLen df.idx)) :
    applyFlagState df = df := by
  unfold applyFlagState
  rcases h with h | h
  · rw [if_pos h]
  · by_cases hl : isIndexLayout df
    · rw [if_pos hl]
    · rw [if_neg hl, if_neg h]

/-- A flat index without duplicate labels has as many unique entries as
entries. -/
theorem flat_nodup_unique_len (ls : List String) (h : ls.Nodup) :
    ¬ (idxUniqueLen (FIdx.flat ls) < idxLen (FIdx.flat ls)) := by
  show ¬ (ls.dedup.length < ls.length)
  rw [List.dedup_eq_self.mpr h]
  exact Nat.lt_irrefl _

/-- C8 (amended): `apply_flag` leaves the caller's table unchanged
whenever the label layout is "index" or the row index is unique; in the
remaining case — columns layout with a non-unique index — the caller's
table is mutated in place by `reset_index` (see the counterexample). -/
theorem apply_flag_no_mutation_unless_nonunique_columns (df : FlagDF)
    (caption : Option String) (z : ℤ) (b : Bool)
    (h : isIndexLayout df = true ∨ ¬ (idxUniqueLen df.idx < idxLen df.idx)) :
    apply_flag df caption (PyVal.int z) b
      = Except.ok (⟨styledFlags df, df, caption.getD "Fairness Measures", z, b⟩, df) := by
  unfold apply_flag
  rw [applyFlagState_eq_self df h]

/-- C8 counterexample: on a columns-layout table with a duplicated row
label, `apply_flag` returns with the caller's table replaced by its
`reset_index` image, which differs from the original. -/
theorem apply_flag_mutates_nonunique_columns_layout :
    apply_flag dfC8 none (PyVal.int 4) true
      = Except.ok (⟨[[false, false], [false, false]], resetIndex dfC8,
                    "Fairness Measures", 4, true⟩, resetIndex dfC8)
    ∧ resetIndex dfC8 ≠ dfC8 :=
  ⟨rfl, by decide⟩

/-- C8 witness: on a columns-layout table with a unique index the call
returns the table unchanged. -/
theorem apply_flag_no_mutation_witness :
    apply_flag dfW8 none (PyVal.int 4) true
      = Except.ok (⟨styledFlags dfW8, dfW8, "Fairness Measures", 4, true⟩, dfW8) :=
  apply_flag_no_mutation_unless_nonunique_columns dfW8 none 4 true
    (Or.inr (flat_nodup_unique_len ["r0", "r1"] (by decide)))

/-- Writing an error for key `f` puts the pair `(f, e)` into the ledger,
whether or not the key was present. -/
theorem updErr_mem_self (errs : List (String × String)) (f e : String) :
    (f, e) ∈ updErr errs f e := by
  unfold updErr
  by_cases h : f ∈ errs.map Prod.fst
  · rw [if_pos h]
    rcases List.mem_map.mp h with ⟨p, hp, hpf⟩
    exact List.mem_map.mpr ⟨p, hp, by rw [if_pos hpf]⟩
  · rw [if_neg h]
    exact List.mem_append.mpr (Or.inr (List.mem_singleton.mpr rfl))

/-- Writing an error for a different key preserves existing ledger
entries. -/
theorem updErr_mem_of_ne (errs : List (String × String)) (f e g e2 : String)
    (hne : g ≠ f) (hmem : (g, e2) ∈ errs) : (g, e2) ∈ updErr errs f e := by
  unfold updErr
  by_cases h : f ∈ errs.map Prod.fst
  · rw [if_pos h]
    exact List.mem_map.mpr ⟨(g, e2), hmem, by rw [if_neg (by simpa using hne)]⟩
  · rw [if_neg h]
    exact List.mem_append.mpr (Or.inl hmem)

/-- If the per-group function fails on some listed key, the grouped apply
as a whole fails (with the first such error). -/
theorem groupApply_error_of_exists (g : String → Except String ResRow) :
    ∀ keys : List String, (∃ k ∈ keys, ∃ e, g k = Except.error e) →
      ∃ e2, groupApply g keys = Except.error e2 := by
  intro keys
  induction keys with
  | nil => rintro ⟨k, hk, -⟩; exact absurd hk (List.not_mem_nil k)
  | cons k ks ih =>
      rintro ⟨k2, hk2, e, he⟩
      cases hgk : g k with
      | error e2 => exact ⟨e2, by rw [groupApply, hgk]⟩
      | ok r =>
          rcases List.mem_cons.mp hk2 with rfl | hmem
          · rw [hgk] at he; exact absurd he (by simp)
          · rcases ih ⟨k2, hmem, e, he⟩ with ⟨e2, he2⟩
            exact ⟨e2, by rw [groupApply, hgk, he2]; rfl⟩

/-- Every row of a successful grouped apply satisfies any property that
all per-group successes satisfy. -/
theorem groupApply_ok_all (g : String → Except String ResRow) (P : ResRow → Prop)
    (hg : ∀ k r, g k = Except.ok r → P r) :
    ∀ (keys : List String) (rs : List ResRow),
      groupApply g keys = Except.ok rs → ∀ r ∈ rs, P r := by
  intro keys
  induction keys with
  | nil =>
      intro rs h r hr
      rw [groupApply] at h
      cases h
      exact absurd hr (List.not_mem_nil r)
  | cons k ks ih =>
      intro rs h r hr
      rw [groupApply] at h
      cases hgk : g k with
      | error e => rw [hgk] at h; exact absurd h (by simp)
      | ok r0 =>
          rw [hgk] at h
          cases hrest : groupApply g ks with
          | error e => rw [hrest] at h; exact absurd h (by simp [Except.map])
          | ok rs0 =>
              rw [hrest] at h
              cases h
              rcases List.mem_cons.mp hr with rfl | hmem
              · exact hg k r hgk
              · exact ih rs0 hrest r hmem

/-- Every row produced for feature `f` carries `f` as its feature name. -/
theorem featureResult_ok_fname (df : DFrame)
    (func : DFrame → Except String (List (String × ℚ))) (f : String)
    (rs : List ResRow) (h : featureResult df func f = Except.ok rs) :
    ∀ r ∈ rs, r.fname = f := by
  refine groupApply_ok_all _ (fun r => r.fname = f) ?_ _ rs h
  intro k r hk
  cases hfk : func (subFrame df f k) with
  | error e => rw [hfk] at hk; exact absurd hk (by simp [Except.map])
  | ok m =>
      rw [hfk] at hk
      cases hk
      rfl

/-- The frames accumulated by the feature loop are exactly the successful
per-feature results, in feature order. -/
theorem afg_foldl_fst (df : DFrame) (func : DFrame → Except String (List (String × ℚ))) :
    ∀ (features : List String) (acc : List (List ResRow) × List (String × String)),
      (features.foldl (afgStep df func) acc).1
        = acc.1 ++ features.filterMap (fun g => okPart (featureResult df func g)) := by
  intro features
  induction features with
  | nil => intro acc; simp
  | cons f fs ih =>
      intro acc
      rw [List.foldl_cons, List.filterMap_cons]
      cases hf : featureResult df func f with
      | error e =>
          rw [show afgStep df func acc f = (acc.1, updErr acc.2 f e) by rw [afgStep, hf]]
          simp [okPart, ih]
      | ok rows =>
          rw [show afgStep df func acc f = (acc.1 ++ [rows], acc.2) by rw [afgStep, hf]]
          simp [okPart, ih]

/-- A ledger entry for a feature not in the remaining sweep survives the
rest of the sweep. -/
theorem afg_foldl_errs_preserved (df : DFrame)
    (func : DFrame → Except String (List (String × ℚ))) :
    ∀ (features : List String) (acc : List (List ResRow) × List (String × String))
      (g e2 : String), (g, e2) ∈ acc.2 → g ∉ features →
      (g, e2) ∈ (features.foldl (afgStep df func) acc).2 := by
  intro features
  induction features with
  | nil => intro acc g e2 hmem _; exact hmem
  | cons f fs ih =>
      intro acc g e2 hmem hnot
      have hne : g ≠ f := fun hgf => hnot (hgf ▸ List.mem_cons_self f fs)
      have hnfs : g ∉ fs := fun hgfs => hnot (List.mem_cons_of_mem f hgfs)
      rw [List.foldl_cons]
      cases hf : featureResult df func f with
      | error e =>
          rw [show afgStep df func acc f = (acc.1, updErr acc.2 f e) by rw [afgStep, hf]]
          exact ih _ g e2 (updErr_mem_of_ne acc.2 f e g e2 hne hmem) hnfs
      | ok rows =>
          rw [show afgStep df func acc f = (acc.1 ++ [rows], acc.2) by rw [afgStep, hf]]
          exact ih _ g e2 hmem hnfs

/-- A feature whose grouped apply fails gets its error recorded in the
ledger of the sweep. -/
theorem afg_foldl_errs_mem (df : DFrame)
    (func : DFrame → Except String (List (String × ℚ))) :
    ∀ (features : List String) (acc : List (List ResRow) × List (String × String))
      (f e0 : String), features.Nodup → f ∈ features →
      featureResult df func f = Except.error e0 →
      (f, e0) ∈ (features.foldl (afgStep df func) acc).2 := by
  intro features
  induction features with
  | nil => intro acc f e0 _ hf _; exact absurd hf (List.not_mem_nil f)
  | cons g gs ih =>
      intro acc f e0 hnd hf herr
      have hgnotin : g ∉ gs := (List.nodup_cons.mp hnd).1
      have hndgs : gs.Nodup := (List.nodup_cons.mp hnd).2
      rw [List.foldl_cons]
      rcases List.mem_cons.mp hf with rfl | hmem
      · rw [show afgStep df func acc f = (acc.1, updErr acc.2 f e0) by rw [afgStep, herr]]
        exact afg_foldl_errs_preserved df func gs _ f e0 (updErr_mem_self acc.2 f e0) hgnotin
      · cases hg : featureResult df func g with
        | error e =>
            rw [show afgStep df func acc g = (acc.1, updErr acc.2 g e) by rw [afgStep, hg]]
            exact ih _ f e0 hndgs hmem herr
        | ok rows =>
            rw [show afgStep df func acc g = (acc.1 ++ [rows], acc.2) by rw [afgStep, hg]]
            exact ih _ f e0 hndgs hmem herr

/-- The rows of the assembled applier table are the concatenation of the
accumulated frames, in both assembly branches. -/
theorem mkResTable_rows (res : List (List ResRow)) :
    (mkResTable res).rows = res.flatten := by
  unfold mkResTable
  by_cases h : res = []
  · rw [if_pos h, h]; rfl
  · rw [if_neg h]

/-- C1 counterexample: with one feature `f` over partitions `a` and `b`,
a metric function that raises only on partition `a` and succeeds on
partition `b`, the applier records the error against `f` but returns no
row at all — the sibling partition `b` of the same feature does not
appear in the table, contradicting the claim that only the failing
partition is skipped. -/
theorem feature_applier_drops_sibling_partitions :
    funcC1 (subFrame dfC1 "f" "b") = Except.ok [("m", 1)]
    ∧ ("f", "boom") ∈ (applyFeatureGroups ["f"] dfC1 funcC1).2
    ∧ (applyFeatureGroups ["f"] dfC1 funcC1).1.rows = [] := by
  refine ⟨rfl, by decide, by decide⟩

/-- C1 (amended): if the metric function raises on some partition of a
feature `f`, the exception is recorded in the error ledger against `f`
and the *entire* feature `f` is skipped — no partition of `f` contributes
a row — while every other feature whose grouped apply succeeds still
contributes all of its rows to the returned table. -/
theorem feature_applier_error_isolation (features : List String) (df : DFrame)
    (func : DFrame → Except String (List (String × ℚ))) (f : String)
    (hnd : features.Nodup) (hf : f ∈ features)
    (herr : ∃ v, v ∈ featureGroupKeys df f ∧ ∃ e, func (subFrame df f v) = Except.error e) :
    (∃ e, (f, e) ∈ (applyFeatureGroups features df func).2)
    ∧ (∀ r ∈ (applyFeatureGroups features df func).1.rows, r.fname ≠ f)
    ∧ (∀ g ∈ features, ∀ rs, featureResult df func g = Except.ok rs →
        ∀ r ∈ rs, r ∈ (applyFeatureGroups features df func).1.rows) := by
  have herr2 : ∃ e, featureResult df func f = Except.error e := by
    rcases herr with ⟨v, hv, e, he⟩
    refine groupApply_error_of_exists _ (featureGroupKeys df f) ⟨v, hv, e, ?_⟩
    rw [he]
    rfl
  rcases herr2 with ⟨e0, he0⟩
  have hrows : (applyFeatureGroups features df func).1.rows
      = (features.filterMap (fun g => okPart (featureResult df func g))).flatten := by
    show (mkResTable (features.foldl (afgStep df func) ([], [])).1).rows = _
    rw [mkResTable_rows, afg_foldl_fst df func features ([], [])]
    rfl
  refine ⟨⟨e0, ?_⟩, ?_, ?_⟩
  · exact afg_foldl_errs_mem df func features ([], []) f e0 hnd hf he0
  · intro r hr
    rw [hrows] at hr
    rcases List.mem_flatten.mp hr with ⟨rs, hrs, hrmem⟩
    rcases List.mem_filterMap.mp hrs with ⟨g, hg, hok⟩
    cases hres : featureResult df func g with
    | error e =>
        rw [hres] at hok
        exact absurd hok (by simp [okPart])
    | ok rs2 =>
        rw [hres] at hok
        have : rs2 = rs := by simpa [okPart] using hok
        subst this
        have hname := featureResult_ok_fname df func g rs2 hres r hrmem
        rw [hname]
        intro hgf
        rw [hgf] at hres
        rw [hres] at he0
        exact Except.noConfusion he0
  · intro g hg rs hok r hr
    rw [hrows]
    refine List.mem_flatten.mpr ⟨rs, ?_, hr⟩
    refine List.mem_filterMap.mpr ⟨g, hg, ?_⟩
    rw [hok]
    rfl

/-- C1 witness: two features over concrete data, the first failing on one
of its two partitions, the second fully succeeding; the amended isolation
property holds at that input. -/
theorem feature_applier_error_isolation_witness :
    (∃ e, ("f", e) ∈ (applyFeatureGroups ["f", "g"] dfC1w funcC1w).2)
    ∧ (∀ r ∈ (applyFeatureGroups ["f", "g"] dfC1w funcC1w).1.rows, r.fname ≠ "f")
    ∧ (∀ g ∈ ["f", "g"], ∀ rs, featureResult dfC1w funcC1w g = Except.ok rs →
        ∀ r ∈ rs, r ∈ (applyFeatureGroups ["f", "g"] dfC1w funcC1w).1.rows) :=
  feature_applier_error_isolation ["f", "g"] dfC1w funcC1w "f" (by decide) (by decide)
    ⟨"a", by decide, "boom", rfl⟩

/-- A nonempty table yields at least one group key for every feature. -/
theorem featureGroupKeys_ne_nil (df : DFrame) (f : String) (h : df.rows ≠ []) :
    featureGroupKeys df f ≠ [] := by
  unfold featureGroupKeys pySorted
  intro hcontra
  have hlen := (List.perm_insertionSort pyStrLe (colVals df f).dedup).length_eq
  rw [hcontra] at hlen
  have hded : (colVals df f).dedup = [] := List.length_eq_zero.mp hlen.symm
  have hcv : colVals df f = [] := (List.dedup_eq_nil _).mp hded
  exact h (List.map_eq_nil_iff.mp hcv)

/-- If the metric function raises on every partition, the grouped apply
of a feature with at least one group fails. -/
theorem featureResult_error_of_total (df : DFrame)
    (func : DFrame → Except String (List (String × ℚ))) (f : String)
    (hfunc : ∀ x, ∃ e, func x = Except.error e)
    (hne : featureGroupKeys df f ≠ []) :
    ∃ e, featureResult df func f = Except.error e := by
  refine groupApply_error_of_exists _ (featureGroupKeys df f) ?_
  rcases List.exists_cons_of_ne_nil hne with ⟨k, ks, hk⟩
  rcases hfunc (subFrame df f k) with ⟨e, he⟩
  refine ⟨k, by rw [hk]; exact List.mem_cons_self k ks, e, ?_⟩
  rw [he]
  rfl

/-- When every partition of every feature raises, the inner value loop of
the bias applier accumulates no rows. -/
theorem bias_vals_foldl_no_rows (df : BFrame) (f : String)
    (func : List (ℕ × ℚ × ℚ) → ℕ → Except String (List (String × ℚ)))
    (hfunc : ∀ s p, ∃ e, func s p = Except.error e) :
    ∀ (vals : List String) (acc : List ResRow × List (String × String)),
      ((vals.foldl (biasStep df f func) acc).1 = acc.1) := by
  intro vals
  induction vals with
  | nil => intro acc; rfl
  | cons v vs ih =>
      intro acc
      rw [List.foldl_cons]
      by_cases hn : paNunique df f v = 1
      · rw [show biasStep df f func acc v = acc by rw [biasStep, if_pos hn]]
        exact ih acc
      · rcases hfunc (biasSubset df f v) 1 with ⟨e, he⟩
        rw [show biasStep df f func acc v = (acc.1, updErr acc.2 f e) by
          rw [biasStep, if_neg hn, he]]
        exact ih _

/-- When every partition of every feature raises, the bias applier sweep
accumulates no rows. -/
theorem bias_features_foldl_no_rows (df : BFrame)
    (func : List (ℕ × ℚ × ℚ) → ℕ → Except String (List (String × ℚ)))
    (hfunc : ∀ s p, ∃ e, func s p = Except.error e) :
    ∀ (features : List String) (acc : List ResRow × List (String × String)),
      ((features.foldl (biasFeature df func) acc).1 = acc.1) := by
  intro features
  induction features with
  | nil => intro acc; rfl
  | cons f fs ih =>
      intro acc
      rw [List.foldl_cons]
      rw [ih]
      show (((biasVals df f).foldl (biasStep df f func) acc).1) = acc.1
      exact bias_vals_foldl_no_rows df f func hfunc (biasVals df f) acc

/-- C6: when the metric function raises on every invocation (so no
feature produces any successful row), both appliers return the empty
table carrying exactly the two id columns `Feature Name` and
`Feature Value`; nothing is raised — failures are only recorded in the
ledgers. -/
theorem appliers_empty_table_on_total_failure
    (features : List String) (df : DFrame)
    (func : DFrame → Except String (List (String × ℚ)))
    (bfeatures : List String) (bdf : BFrame)
    (bfunc : List (ℕ × ℚ × ℚ) → ℕ → Except String (List (String × ℚ)))
    (hfunc : ∀ x, ∃ e, func x = Except.error e)
    (hrows : df.rows ≠ [])
    (hbfunc : ∀ s p, ∃ e, bfunc s p = Except.error e) :
    (applyFeatureGroups features df func).1 = ⟨["Feature Name", "Feature Value"], []⟩
    ∧ (applyBiasGroups bfeatures bdf bfunc).1 = ⟨["Feature Name", "Feature Value"], []⟩ := by
  constructor
  · show mkResTable (features.foldl (afgStep df func) ([], [])).1 = _
    rw [afg_foldl_fst df func features ([], [])]
    have hnil : features.filterMap (fun g => okPart (featureResult df func g)) = [] := by
      rw [List.filterMap_eq_nil_iff]
      intro g _
      rcases featureResult_error_of_total df func g hfunc
        (featureGroupKeys_ne_nil df g hrows) with ⟨e, he⟩
      rw [he]
      rfl
    rw [hnil]
    rfl
  · show mkResTableRows (bfeatures.foldl (biasFeature bdf bfunc) ([], [])).1 = _
    rw [bias_features_foldl_no_rows bdf bfunc hbfunc bfeatures ([], [])]
    rfl

/-- C6 witness: concrete inputs on which every metric invocation raises;
both appliers return the two-column empty table. -/
theorem appliers_empty_table_witness :
    (applyFeatureGroups ["f"] dfW6 funcW6).1 = ⟨["Feature Name", "Feature Value"], []⟩
    ∧ (applyBiasGroups ["g"] bdfW6 bfuncW6).1 = ⟨["Feature Name", "Feature Value"], []⟩ :=
  appliers_empty_table_on_total_failure ["f"] dfW6 funcW6 ["g"] bdfW6 bfuncW6
    (fun _ => ⟨"e", rfl⟩) (by decide) (fun _ _ => ⟨"e", rfl⟩)

/-- C5: for every report with duplicate-free columns (and distinct head
names), `sort_report` emits a permutation of the original columns — no
column added or dropped — in which the head columns present in the report
come first, in their fixed order, and all remaining columns follow in
lexicographically sorted order. -/
theorem sort_report_column_order_invariant (yn yh : String) (cols : List String)
    (hc : cols.Nodup) (hh : (head_names yn yh).Nodup) :
    List.Perm (sort_report_cols yn yh cols) cols
    ∧ (sort_report_cols yn yh cols).take
        ((head_names yn yh).filter (fun c => decide (c ∈ cols))).length
        = (head_names yn yh).filter (fun c => decide (c ∈ cols))
    ∧ List.Sorted pyStrLe ((sort_report_cols yn yh cols).drop
        ((head_names yn yh).filter (fun c => decide (c ∈ cols))).length) := by
  have hdef : sort_report_cols yn yh cols
      = ((head_names yn yh).filter (fun c => decide (c ∈ cols)))
        ++ pySorted (cols.filter (fun c =>
            !(decide (c ∈ (head_names yn yh).filter (fun c2 => decide (c2 ∈ cols)))))) := rfl
  refine ⟨?_, ?_, ?_⟩
  · rw [hdef]
    have h1 : List.Perm
        (pySorted (cols.filter (fun c =>
          !(decide (c ∈ (head_names yn yh).filter (fun c2 => decide (c2 ∈ cols)))))))
        (cols.filter (fun c =>
          !(decide (c ∈ (head_names yn yh).filter (fun c2 => decide (c2 ∈ cols)))))) :=
      List.perm_insertionSort pyStrLe _
    have h2 : List.Perm
        ((head_names yn yh).filter (fun c => decide (c ∈ cols)))
        (cols.filter (fun c =>
          decide (c ∈ (head_names yn yh).filter (fun c2 => decide (c2 ∈ cols))))) := by
      refine (List.perm_ext_iff_of_nodup (hh.filter _) (hc.filter _)).mpr ?_
      intro a
      simp only [List.mem_filter, decide_eq_true_eq]
      constructor
      · rintro ⟨ha1, ha2⟩
        exact ⟨ha2, ha1, ha2⟩
      · rintro ⟨ha1, ha2, -⟩
        exact ⟨ha2, ha1⟩
    exact (List.Perm.append_left _ h1).trans
      ((List.Perm.append_right _ h2).trans (List.filter_append_perm _ cols))
  · rw [hdef, List.take_left]
  · rw [hdef, List.drop_left]
    exact List.sorted_insertionSort pyStrLe _

/-- C5 witness: concrete target display names and a concrete column set;
the sorted report puts the present head columns first and the rest in
lexicographic order, dropping and adding nothing. -/
theorem sort_report_column_order_witness :
    List.Perm (sort_report_cols "True Target" "Pred Target"
        ["Zeta", "Feature Name", "Obs.", "Alpha"])
        ["Zeta", "Feature Name", "Obs.", "Alpha"]
    ∧ (sort_report_cols "True Target" "Pred Target"
        ["Zeta", "Feature Name", "Obs.", "Alpha"]).take
        ((head_names "True Target" "Pred Target").filter
          (fun c => decide (c ∈ ["Zeta", "Feature Name", "Obs.", "Alpha"]))).length
        = (head_names "True Target" "Pred Target").filter
          (fun c => decide (c ∈ ["Zeta", "Feature Name", "Obs.", "Alpha"]))
    ∧ List.Sorted pyStrLe ((sort_report_cols "True Target" "Pred Target"
        ["Zeta", "Feature Name", "Obs.", "Alpha"]).drop
        ((head_names "True Target" "Pred Target").filter
          (fun c => decide (c ∈ ["Zeta", "Feature Name", "Obs.", "Alpha"]))).length) :=
  sort_report_column_order_invariant "True Target" "Pred Target"
    ["Zeta", "Feature Name", "Obs.", "Alpha"] (by decide) (by decide)
